import Mathlib

/-!
Verification of tailscalesd: the public-API Discoverer and the command's start-up

A shallow embedding of `publicapi.go` and `cmd/tailscalesd/main.go`.

Conventions of the embedding:

* Go strings are Lean strings; a Go slice is a list, and the nil slice is the
  empty list.
* Go's two-valued return `([]Device, error)` is kept as a pair of a list and an
  optional error (`none` is the nil error).
* The standard library and the operating system are not part of the repository.
  What the code asks of them (URL validation, the HTTP round trip, JSON
  decoding, duration parsing, the environment, the write to standard error)
  is taken as a field of `Env` or `Sys`, so every theorem holds for all of
  their behaviours.
* Calls into the library that a claim counts (the HTTP round trip, decoding and
  closing the body) are recorded in an effect trace, in program order.
-/

namespace Tailscalesd

/-! ## Go values -/

/-- Go error values. `plain` is an error made by a library or by `errors.New`;
its number stands for the identity of the value. `wrapError` is what
`fmt.Errorf` builds for a format with one `%w` verb: the formatted message and
the wrapped error. -/
inductive GoError where
  | plain (id : Nat) (msg : String)
  | wrapError (msg : String) (err : GoError)
  deriving DecidableEq, Repr

/-- The `Error()` method: the message of the error. -/
def GoError.Error : GoError → String
  | .plain _ msg => msg
  | .wrapError msg _ => msg

/-- The `Unwrap()` method, as `errors.Unwrap` sees it. -/
def GoError.Unwrap : GoError → Option GoError
  | .plain _ _ => none
  | .wrapError _ err => some err

/-- The function `errors.Is(err, target)`: `err` or an error in its unwrap chain is
`target`. -/
def errorsIs : GoError → GoError → Bool
  | .plain id msg, target => decide (GoError.plain id msg = target)
  | .wrapError msg err, target =>
      decide (GoError.wrapError msg err = target) || errorsIs err target

/-- The call `fmt.Errorf("%w: %v", err, v)` for an error `err` and a string `v`. -/
def Errorf_w_v (err : GoError) (v : String) : GoError :=
  .wrapError (err.Error ++ ": " ++ v) err

/-- A `context.Context` handed in by the caller. What it means for the request
(a nil context, a deadline, a cancellation) is decided by the library functions
that receive it. -/
structure Context where
  id : Nat
  deriving DecidableEq, Repr

/-- Modelled from the spec: the `Device` struct is declared in a file of the
package that is not among the sources. Section 3 of the specification lists its
attributes: an identifier, a name, the overlay addresses, a last-seen
indicator, the API host that served the record and the tailnet. `publicapi.go`
itself assigns the fields `API` and `Tailnet`. -/
structure Device where
  ID : String
  Name : String
  Addresses : List String
  LastSeen : String
  API : String
  Tailnet : String
  deriving DecidableEq, Repr

/-- An `*http.Request` as `http.NewRequestWithContext` builds it: the context,
the method, the URL string it was given and the body (`none` is a nil body). -/
structure Request where
  ctx : Context
  Method : String
  URL : String
  Body : Option String
  deriving DecidableEq, Repr

/-- The fields of `*http.Response` the code reads. -/
structure Response where
  StatusCode : Int
  Status : String
  Body : String
  deriving DecidableEq, Repr

/-- An `*http.Client`: the three timeouts `defaultHTTPClient` sets, in
nanoseconds of `time.Duration`, and what `Do` answers to a request. -/
structure HTTPClient where
  Timeout : Int
  DialTimeout : Int
  TLSHandshakeTimeout : Int
  Do : Request → Except GoError Response

/-- What surrounds `publicapi.go`: the package-level sentinel `errFailedRequest`
(declared in a file that is not among the sources), the check
`http.NewRequestWithContext` makes of its context and URL (`some err` when it
rejects them), `encoding/json` decoding a body into the `devices` field of a
`deviceAPIResponse`, and the network a default client talks to. -/
structure Env where
  errFailedRequest : GoError
  newRequestError : Context → String → Option GoError
  jsonDecode : String → Except GoError (List Device)
  network : Request → Except GoError Response

/-- Calls into the library made by `Devices`, in program order. -/
inductive Effect where
  | clientDo (req : Request)
  | decodeBody (body : String)
  | closeBody (body : String)
  deriving DecidableEq, Repr

/-- How a call ends: it returns its two values, or the goroutine panics. -/
inductive Outcome where
  | returned (devices : List Device) (err : Option GoError)
  | panicked (what : String)
  deriving DecidableEq, Repr

/-! ## publicapi.go -/

/-- PublicAPIHost host for Tailscale. -/
def PublicAPIHost : String := "api.tailscale.com"

/-- The constant `http.MethodGet`. -/
def MethodGet : String := "GET"

/-- One second of `time.Duration`, a signed count of nanoseconds. -/
def Second : Int := 1000000000

/-- One minute of `time.Duration`. -/
def Minute : Int := 60 * Second

structure publicAPIDiscoverer where
  client : Option HTTPClient
  apiBase : String
  tailnet : String
  token : String

/-- The URL string of `Devices`:
`fmt.Sprintf("https://%v@%v/api/v2/tailnet/%v/devices", a.token, a.apiBase, a.tailnet)`. -/
def publicAPIDiscoverer.url (a : publicAPIDiscoverer) : String :=
  "https://" ++ a.token ++ "@" ++ a.apiBase ++ "/api/v2/tailnet/" ++ a.tailnet ++ "/devices"

/-- The call `http.NewRequestWithContext(ctx, method, url, body)`: an error when the
library rejects the context or the URL, else a request that carries the four
arguments. -/
def NewRequestWithContext (env : Env) (ctx : Context) (method url : String)
    (body : Option String) : Except GoError Request :=
  match env.newRequestError ctx url with
  | some err => .error err
  | none => .ok { ctx := ctx, Method := method, URL := url, Body := body }

/-- The loop `for i := range d.Devices` of `Devices`: every entry gets the API
host and the tailnet of the Discoverer. -/
def stampDevices (apiBase tailnet : String) : List Device → List Device
  | [] => []
  | d :: rest => { d with API := apiBase, Tailnet := tailnet } :: stampDevices apiBase tailnet rest

/-- The method `(*publicAPIDiscoverer).Devices`, with the trace of its library calls. The
deferred `resp.Body.Close()` is registered only after the status check, so it
runs on the two paths that decode. -/
def publicAPIDiscoverer.Devices (env : Env) (a : publicAPIDiscoverer) (ctx : Context) :
    Outcome × List Effect :=
  match NewRequestWithContext env ctx MethodGet a.url none with
  | .error err => (.returned [] (some err), [])
  | .ok req =>
    match a.client with
    | none => (.panicked "invalid memory address or nil pointer dereference", [])
    | some client =>
      match client.Do req with
      | .error err => (.returned [] (some err), [.clientDo req])
      | .ok resp =>
        if Int.tdiv resp.StatusCode 100 ≠ 2 then
          (.returned [] (some (Errorf_w_v env.errFailedRequest resp.Status)), [.clientDo req])
        else
          match env.jsonDecode resp.Body with
          | .error err =>
              (.returned [] (some err),
                [.clientDo req, .decodeBody resp.Body, .closeBody resp.Body])
          | .ok devices =>
              (.returned (stampDevices a.apiBase a.tailnet devices) none,
                [.clientDo req, .decodeBody resp.Body, .closeBody resp.Body])

def defaultHTTPClient (env : Env) : HTTPClient :=
  { Timeout := Second * 10
    DialTimeout := 5 * Second
    TLSHandshakeTimeout := 5 * Second
    Do := env.network }

/-- A value of the function type `PublicAPIOption`: the nil function, or one of
the closures the two exported constructors return. -/
inductive PublicAPIOption where
  | nilFunc
  | WithAPIHost (host : String)
  | WithHTTPClient (client : Option HTTPClient)

/-- Calling an option on the Discoverer under construction; `none` is the panic
of calling a nil function. -/
def PublicAPIOption.call : PublicAPIOption → publicAPIDiscoverer → Option publicAPIDiscoverer
  | .nilFunc, _ => none
  | .WithAPIHost host, api => some { api with apiBase := host }
  | .WithHTTPClient client, api => some { api with client := client }

/-- The loop `for _, opt := range opts` of `PublicAPI`. -/
def applyOptions : List PublicAPIOption → publicAPIDiscoverer → Option publicAPIDiscoverer
  | [], api => some api
  | opt :: rest, api =>
    match opt.call api with
    | none => none
    | some api2 => applyOptions rest api2

/-- PublicAPI client polls the public Tailscale API for hosts in the tailnet.
`none` is a panic during construction. -/
def PublicAPI (env : Env) (tailnet token : String) (opts : List PublicAPIOption) :
    Option publicAPIDiscoverer :=
  match applyOptions opts
      { client := none, apiBase := PublicAPIHost, tailnet := tailnet, token := token } with
  | none => none
  | some api =>
    match api.client with
    | none => some { api with client := some (defaultHTTPClient env) }
    | some _ => some api

/-- What the Discoverer's client answers to a request; `none` when the
Discoverer has no client. -/
def publicAPIDiscoverer.roundTrip (a : publicAPIDiscoverer) (req : Request) :
    Option (Except GoError Response) :=
  match a.client with
  | none => none
  | some client => some (client.Do req)

/-- The hosts given by the `WithAPIHost` options of an option list, in order. -/
def hostsGiven : List PublicAPIOption → List String
  | [] => []
  | .WithAPIHost host :: rest => host :: hostsGiven rest
  | _ :: rest => hostsGiven rest

/-- The configured API host as the specification words it: the host of the last
`WithAPIHost` option, or `api.tailscale.com` when none is given. -/
def configuredAPIHost (opts : List PublicAPIOption) : String :=
  (hostsGiven opts).getLast?.getD "api.tailscale.com"

/-- The requests a trace hands to the HTTP client, in order. -/
def requestsIssued : List Effect → List Request
  | [] => []
  | .clientDo req :: rest => req :: requestsIssued rest
  | _ :: rest => requestsIssued rest

/-- Whether a character ends the authority of a URL: `net/url` cuts the
fragment at the first `#`, the query at the first `?`, and ends the authority at
the first `/`. -/
def endsAuthority (c : Char) : Bool :=
  c == '/' || c == '?' || c == '#'

/-- The authority `net/url` takes from a URL string that starts with `https://`:
the text after the two slashes (eight characters in) up to the first character
that ends it. -/
def rawAuthority (url : String) : List Char :=
  (url.data.drop 8).takeWhile (fun c => !endsAuthority c)

/-- The text of an authority before its last `@`, which `net/url` takes as the
userinfo; none when the authority holds no `@`. -/
def beforeLastAt : List Char → Option (List Char)
  | [] => none
  | c :: rest =>
    match beforeLastAt rest with
    | some u => some (c :: u)
    | none => if c == '@' then some [] else none

/-- The userinfo text of a URL string that starts with `https://`, before any
unescaping; none when the URL has no userinfo. -/
def rawUserinfo (url : String) : Option String :=
  (beforeLastAt (rawAuthority url)).map String.mk

/-! ## cmd/tailscalesd/main.go -/

/-- What surrounds `main.go`: the surroundings of the package, the process
environment (`os.LookupEnv`), `time.ParseDuration`, the lower-case mapping of
`unicode.ToLower` for runes above `unicode.MaxASCII`, the result of writing a
line to standard error with `fmt.Fprintln` (`some err` when the write fails),
the package constant `tailscalesd.LocalAPISocket` (declared in a file that is
not among the sources) and the `Version` variable, set at build time. -/
structure Sys where
  env : Env
  LookupEnv : String → Option String
  ParseDuration : String → Except GoError Int
  unicodeLower : Char → Char
  stderrWrite : String → Option GoError
  LocalAPISocket : String
  Version : String

/-- The function `os.Getenv`: the value of the variable, empty when it is unset. -/
def Getenv (sys : Sys) (key : String) : String :=
  match sys.LookupEnv key with
  | some val => val
  | none => ""

/-- The function `unicode.IsSpace`: the white space of Latin-1 and the runes with Unicode's
White Space property. -/
def isSpace (c : Char) : Bool :=
  c == '\t' || c == '\n' || c.toNat == 0x0B || c.toNat == 0x0C || c == '\r' || c == ' '
  || c.toNat == 0x85 || c.toNat == 0xA0 || c.toNat == 0x1680
  || (0x2000 ≤ c.toNat && c.toNat ≤ 0x200A)
  || c.toNat == 0x2028 || c.toNat == 0x2029 || c.toNat == 0x202F || c.toNat == 0x205F
  || c.toNat == 0x3000

/-- The function `strings.TrimSpace`: the string without its leading and trailing white space. -/
def TrimSpace (s : String) : String :=
  String.mk ((s.data.dropWhile isSpace).reverse.dropWhile isSpace).reverse

/-- The function `unicode.ToLower` on one rune: the letters A to Z move to a to z, other
ASCII runes stay, and a rune above ASCII follows Unicode's case table. -/
def toLowerRune (sys : Sys) (c : Char) : Char :=
  if c.toNat ≤ 0x7F then
    if 0x41 ≤ c.toNat ∧ c.toNat ≤ 0x5A then Char.ofNat (c.toNat + 0x20) else c
  else sys.unicodeLower c

/-- The function `strings.ToLower`: every rune mapped by `unicode.ToLower`. -/
def ToLower (sys : Sys) (s : String) : String :=
  String.mk (s.data.map (toLowerRune sys))

/-- The package-level variables of `main.go` that hold the configuration. -/
structure Vars where
  address : String
  token : String
  tailnet : String
  printVer : Bool
  pollLimit : Int
  useLocalAPI : Bool
  localAPISocket : String
  deriving DecidableEq, Repr

/-- The `var` block of `main.go`: the values the variables start with. -/
def initialVars : Vars :=
  { address := "0.0.0.0:9242"
    token := ""
    tailnet := ""
    printVer := false
    pollLimit := Minute * 5
    useLocalAPI := false
    localAPISocket := PublicAPIHost }

def envVarWithDefault (sys : Sys) (key def_ : String) : String :=
  match sys.LookupEnv key with
  | some val => val
  | none => def_

def boolEnvVarWithDefault (sys : Sys) (key : String) (def_ : Bool) : Bool :=
  match sys.LookupEnv key with
  | some val =>
    let val := ToLower sys (TrimSpace val)
    val == "true" || val == "yes"
  | none => def_

/-- The function `durationEnvVarWithDefault`; the log line it prints when parsing fails is
output only and is left out. -/
def durationEnvVarWithDefault (sys : Sys) (key : String) (def_ : Int) : Int :=
  match sys.LookupEnv key with
  | some val =>
    match sys.ParseDuration val with
    | .ok d => d
    | .error _ => def_
  | none => def_

/-- The function `defineFlags`: each `flag.XxxVar(&v, name, value, usage)` registers the flag
and stores its default `value` in `v`. -/
def defineFlags (sys : Sys) (v : Vars) : Vars :=
  { address := envVarWithDefault sys "LISTEN" v.address
    token := Getenv sys "TAILSCALE_API_TOKEN"
    tailnet := Getenv sys "TAILNET"
    pollLimit := durationEnvVarWithDefault sys "TAILSCALE_API_POLL_LIMIT" v.pollLimit
    printVer := false
    useLocalAPI := boolEnvVarWithDefault sys "TAILSCALE_USE_LOCAL_API" false
    localAPISocket := envVarWithDefault sys "TAILSCALE_LOCAL_API_SOCKET" v.localAPISocket }

/-- A command line that `flag.Parse` accepts: for each of the seven flags, the
value given for it, or `none` when the flag does not occur. -/
structure CmdLine where
  address : Option String
  token : Option String
  tailnet : Option String
  poll : Option Int
  version : Option Bool
  localapi : Option Bool
  localapi_socket : Option String
  deriving DecidableEq, Repr

/-- The call `flag.Parse()`: a flag that occurs on the command line overwrites its
variable, the others keep their default. -/
def flagParse (cl : CmdLine) (v : Vars) : Vars :=
  { address := cl.address.getD v.address
    token := cl.token.getD v.token
    tailnet := cl.tailnet.getD v.tailnet
    pollLimit := cl.poll.getD v.pollLimit
    printVer := cl.version.getD v.printVer
    useLocalAPI := cl.localapi.getD v.useLocalAPI
    localAPISocket := cl.localapi_socket.getD v.localAPISocket }

/-- The configuration `main` works with once `defineFlags()` and `flag.Parse()`
have run. -/
def config (sys : Sys) (cl : CmdLine) : Vars :=
  flagParse cl (defineFlags sys initialVars)

/-- The Discoverer values `main` builds, each recorded as the call that builds
it. `LocalAPI` and `RateLimit` belong to files of the package that are not
among the sources: the record keeps the call and its arguments and says nothing
of what the result does. -/
inductive Discoverer where
  | PublicAPI (api : publicAPIDiscoverer)
  | LocalAPI (socket : String)
  | RateLimit (wrapped : Discoverer) (interval : Int)

/-- The handler `main` registers, recorded as the call `Export(ts)`. -/
inductive Handler where
  | Export (ts : Discoverer)

/-- The number of `PublicAPI` Discoverers in a Discoverer value. -/
def Discoverer.publicCount : Discoverer → Nat
  | .PublicAPI _ => 1
  | .LocalAPI _ => 0
  | .RateLimit wrapped _ => wrapped.publicCount

/-- The number of `LocalAPI` Discoverers in a Discoverer value. -/
def Discoverer.localCount : Discoverer → Nat
  | .PublicAPI _ => 0
  | .LocalAPI _ => 1
  | .RateLimit wrapped _ => wrapped.localCount

/-- How `main` ends: it printed the version and returned; it wrote a line to
standard error, printed the usage and returned; it panicked; or it registered a
handler for a pattern and went on to `http.ListenAndServe` on an address. -/
inductive MainOutcome where
  | printedVersion (text : String)
  | usage (line : String)
  | panicked (err : Option GoError)
  | serving (pattern : String) (handler : Handler) (address : String)

/-- The first line `main` may write to standard error. -/
def msgPublicAPI : String := "Both -token and -tailnet are required when using the public API"

/-- The second line `main` may write to standard error. -/
def msgLocalAPI : String := "-localapi_socket must not be empty when using the local API."

/-- The function `main`, from the command line to the way it ends. A panic with
the error of a failed write carries that error; `PublicAPI` panicking carries
none. -/
def main (sys : Sys) (cl : CmdLine) : MainOutcome :=
  let v := config sys cl
  if v.printVer then
    .printedVersion ("tailscalesd version " ++ sys.Version ++ "\n")
  else if !v.useLocalAPI && (v.token == "" || v.tailnet == "") then
    match sys.stderrWrite msgPublicAPI with
    | some err => .panicked (some err)
    | none => .usage msgPublicAPI
  else if v.useLocalAPI && v.localAPISocket == "" then
    match sys.stderrWrite msgLocalAPI with
    | some err => .panicked (some err)
    | none => .usage msgLocalAPI
  else if v.useLocalAPI then
    .serving "/" (.Export (.RateLimit (.LocalAPI sys.LocalAPISocket) v.pollLimit)) v.address
  else
    match PublicAPI sys.env v.tailnet v.token [] with
    | none => .panicked none
    | some api =>
      .serving "/" (.Export (.RateLimit (.PublicAPI api) v.pollLimit)) v.address

/-- Whether `main` ended by serving, which is the one way it ends with a
Discoverer built. -/
def MainOutcome.isServing : MainOutcome → Bool
  | .serving _ _ _ => true
  | _ => false

/-- The Discoverer a run of `main` built before wrapping it with `RateLimit`,
if it built one. -/
def MainOutcome.backend : MainOutcome → Option Discoverer
  | .serving _ (.Export (.RateLimit ts _)) _ => some ts
  | _ => none

/-! ## Concrete surroundings

One world to run the definitions in: a URL check that rejects control
characters the way `net/url` does, an upstream that knows one token, and a
decoder that understands one body. -/

/-- Whether a string holds an ASCII control character. -/
def hasCTLByte (s : String) : Bool :=
  s.data.any (fun c => c.toNat < 0x20 || c.toNat == 0x7F)

/-- A device as an upstream body may carry it, with the two stamped fields
already filled in by someone else. -/
def sampleDevice : Device :=
  { ID := "n1", Name := "alpha", Addresses := ["100.64.0.1"], LastSeen := "",
    API := "elsewhere.example", Tailnet := "other" }

/-- The context of the sample calls. -/
def sampleCtx : Context := { id := 0 }

/-- A sample of the surroundings of `publicapi.go`. -/
def sampleEnv : Env :=
  { errFailedRequest := .plain 1 "failed request"
    newRequestError := fun _ url =>
      if hasCTLByte url then some (.plain 2 "net/url: invalid control character in URL")
      else none
    jsonDecode := fun body =>
      if body = "one device" then .ok [sampleDevice]
      else .error (.plain 3 "unexpected end of JSON input")
    network := fun req =>
      if req.URL = "https://good@api.tailscale.com/api/v2/tailnet/example.com/devices" then
        .ok { StatusCode := 200, Status := "200 OK", Body := "one device" }
      else if req.URL = "https://cut@api.tailscale.com/api/v2/tailnet/example.com/devices" then
        .ok { StatusCode := 200, Status := "200 OK", Body := "one dev" }
      else if req.URL = "https://down@api.tailscale.com/api/v2/tailnet/example.com/devices" then
        .error (.plain 4 "dial tcp: connection refused")
      else
        .ok { StatusCode := 401, Status := "401 Unauthorized", Body := "" } }

/-- The Discoverer of the sample calls: what `PublicAPI` builds for a tailnet
and a token without options. -/
def sampleDiscoverer (token : String) : publicAPIDiscoverer :=
  { client := some (defaultHTTPClient sampleEnv), apiBase := PublicAPIHost,
    tailnet := "example.com", token := token }

/-- The request the sample Discoverer builds for a token. -/
def sampleRequest (token : String) : Request :=
  { ctx := sampleCtx, Method := "GET", URL := (sampleDiscoverer token).url, Body := none }

/-- A client of the caller's own that always answers 200 with the one body the
sample decoder understands. -/
def sampleClient : HTTPClient :=
  { Timeout := 0, DialTimeout := 0, TLSHandshakeTimeout := 0
    Do := fun _ => .ok { StatusCode := 200, Status := "200 OK", Body := "one device" } }

/-- An option list that names two hosts and a client. -/
def sampleOptions : List PublicAPIOption :=
  [.WithAPIHost "first.example", .WithHTTPClient (some sampleClient),
   .WithAPIHost "last.example"]

/-- What `PublicAPI` builds from the sample options. -/
def sampleConfigured : publicAPIDiscoverer :=
  { client := some sampleClient, apiBase := "last.example", tailnet := "example.com",
    token := "good" }

/-- A sample of the surroundings of `main.go`, for a given process environment
and a standard error that either takes the line or fails. -/
def sampleSys (vars : String → Option String) (stderrFails : Bool) : Sys :=
  { env := sampleEnv
    LookupEnv := vars
    ParseDuration := fun s =>
      if s = "1m" then .ok Minute else .error (.plain 5 "time: invalid duration")
    unicodeLower := fun c => c
    stderrWrite := fun _ =>
      if stderrFails then some (.plain 6 "write /dev/stderr: bad file descriptor") else none
    LocalAPISocket := "/run/tailscale/tailscaled.sock"
    Version := "development" }

/-- The process environment with no variable set. -/
def noVars : String → Option String := fun _ => none

/-- A process environment that asks for the local API in mixed case, between
white space, and gives a poll limit that parses. -/
def localVars : String → Option String := fun key =>
  if key = "TAILSCALE_USE_LOCAL_API" then some " Yes\t"
  else if key = "TAILSCALE_API_POLL_LIMIT" then some "1m"
  else if key = "LISTEN" then some ""
  else none

/-- The command line without any flag. -/
def noFlags : CmdLine :=
  { address := none, token := none, tailnet := none, poll := none, version := none,
    localapi := none, localapi_socket := none }

/-- The command line `-localapi -localapi_socket s`. -/
def localFlags (s : String) : CmdLine :=
  { noFlags with localapi := some true, localapi_socket := some s }

/-- The command line `-token tok -tailnet example.com`. -/
def publicFlags : CmdLine :=
  { noFlags with token := some "tok", tailnet := some "example.com" }

/-! ## Lemmas on publicapi.go -/

/-- Go's truncating division by 100 gives 2 exactly on the codes 200 to 299. -/
theorem tdiv_hundred_eq_two (c : Int) : Int.tdiv c 100 = 2 ↔ 200 ≤ c ∧ c ≤ 299 := by
  rcases le_or_lt 0 c with h | h
  · rw [Int.tdiv_eq_ediv h (by norm_num)]
    omega
  · have hneg : Int.tdiv c 100 = -(Int.tdiv (-c) 100) := by
      rw [Int.neg_tdiv, neg_neg]
    rw [hneg, Int.tdiv_eq_ediv (by omega) (by norm_num)]
    omega

/-- The stamping loop is a map over the list. -/
theorem stampDevices_eq_map (apiBase tailnet : String) (L : List Device) :
    stampDevices apiBase tailnet L
      = L.map (fun d => { d with API := apiBase, Tailnet := tailnet }) := by
  induction L with
  | nil => rfl
  | cons d rest ih => simp [stampDevices, ih]

/-- The options leave tailnet and token alone, and the API host ends as the
last host given, or as it started when none is given. -/
theorem applyOptions_fields (opts : List PublicAPIOption) :
    ∀ api d, applyOptions opts api = some d →
      d.tailnet = api.tailnet ∧ d.token = api.token ∧
      d.apiBase = (hostsGiven opts).getLast?.getD api.apiBase := by
  induction opts with
  | nil =>
    intro api d h
    simp [applyOptions] at h
    subst h
    simp [hostsGiven]
  | cons opt rest ih =>
    intro api d h
    cases opt with
    | nilFunc => simp [applyOptions, PublicAPIOption.call] at h
    | WithAPIHost host =>
      simp only [applyOptions, PublicAPIOption.call] at h
      obtain ⟨h1, h2, h3⟩ := ih _ d h
      refine ⟨h1, h2, ?_⟩
      rw [h3]
      simp [hostsGiven, List.getLast?_cons]
    | WithHTTPClient client =>
      simp only [applyOptions, PublicAPIOption.call] at h
      obtain ⟨h1, h2, h3⟩ := ih _ d h
      exact ⟨h1, h2, by rw [h3]; simp [hostsGiven]⟩

/-- What `PublicAPI` builds: the tailnet and token it was given, the configured
API host, and always a client. -/
theorem PublicAPI_fields (env : Env) (tailnet token : String) (opts : List PublicAPIOption)
    (d : publicAPIDiscoverer) (h : PublicAPI env tailnet token opts = some d) :
    d.tailnet = tailnet ∧ d.token = token ∧ d.apiBase = configuredAPIHost opts ∧
      ∃ client, d.client = some client := by
  unfold PublicAPI at h
  cases hopt : applyOptions opts
      { client := none, apiBase := PublicAPIHost, tailnet := tailnet, token := token } with
  | none => simp [hopt] at h
  | some api =>
    obtain ⟨h1, h2, h3⟩ := applyOptions_fields opts _ api hopt
    simp only [hopt] at h
    cases hc : api.client with
    | none =>
      simp only [hc] at h
      cases h
      exact ⟨h1, h2, h3, _, rfl⟩
    | some client =>
      simp only [hc] at h
      cases h
      exact ⟨h1, h2, h3, client, hc⟩

/-- With the request built and the client answering, `Devices` is decided by
the status check and the decoder. -/
theorem Devices_of_response (env : Env) (a : publicAPIDiscoverer) (ctx : Context)
    (client : HTTPClient) (req : Request) (resp : Response)
    (hreq : NewRequestWithContext env ctx MethodGet a.url none = .ok req)
    (hclient : a.client = some client) (hdo : client.Do req = .ok resp) :
    a.Devices env ctx =
      if Int.tdiv resp.StatusCode 100 ≠ 2 then
        (.returned [] (some (Errorf_w_v env.errFailedRequest resp.Status)), [.clientDo req])
      else
        match env.jsonDecode resp.Body with
        | .error err =>
            (.returned [] (some err),
              [.clientDo req, .decodeBody resp.Body, .closeBody resp.Body])
        | .ok devices =>
            (.returned (stampDevices a.apiBase a.tailnet devices) none,
              [.clientDo req, .decodeBody resp.Body, .closeBody resp.Body]) := by
  simp only [publicAPIDiscoverer.Devices, hreq, hclient, hdo]

/-- A request that was built is the GET request for the URL, without a body. -/
theorem NewRequestWithContext_ok (env : Env) (ctx : Context) (method url : String)
    (body : Option String) (req : Request)
    (h : NewRequestWithContext env ctx method url body = .ok req) :
    req = { ctx := ctx, Method := method, URL := url, Body := body } := by
  unfold NewRequestWithContext at h
  cases hn : env.newRequestError ctx url with
  | none =>
    simp only [hn] at h
    cases h
    rfl
  | some err => simp [hn] at h

/-- A list without `@` has no text before a last `@`. -/
theorem beforeLastAt_none (h : List Char) (hno : ∀ c ∈ h, c ≠ '@') :
    beforeLastAt h = none := by
  induction h with
  | nil => rfl
  | cons c rest ih =>
    have hrest := ih (fun x hx => hno x (List.mem_cons_of_mem _ hx))
    have hc : c ≠ '@' := hno c (List.mem_cons_self _ _)
    simp [beforeLastAt, hrest, hc]

/-- With no `@` after it, the `@` that follows `t` is the last one. -/
theorem beforeLastAt_append (t h : List Char) (hno : ∀ c ∈ h, c ≠ '@') :
    beforeLastAt (t ++ '@' :: h) = some t := by
  induction t with
  | nil => simp [beforeLastAt, beforeLastAt_none h hno]
  | cons c rest ih => simp [beforeLastAt, ih]

/-- Taking while a test holds stops at the first character that fails it. -/
theorem takeWhile_append_stop (p : Char → Bool) (a b : List Char) (x : Char)
    (ha : ∀ c ∈ a, p c = true) (hx : p x = false) :
    (a ++ x :: b).takeWhile p = a := by
  induction a with
  | nil => simp [List.takeWhile, hx]
  | cons c rest ih =>
    have hc : p c = true := ha c (List.mem_cons_self _ _)
    simp [List.takeWhile, hc, ih (fun y hy => ha y (List.mem_cons_of_mem _ hy))]

/-- The authority of the URL of `Devices` is token, `@` and host when neither
token nor host holds a character that ends the authority. -/
theorem rawAuthority_url (a : publicAPIDiscoverer)
    (ht : ∀ c ∈ a.token.data, endsAuthority c = false)
    (hh : ∀ c ∈ a.apiBase.data, endsAuthority c = false) :
    rawAuthority a.url = a.token.data ++ '@' :: a.apiBase.data := by
  have hdata : a.url.data = "https://".data ++
      ((a.token.data ++ '@' :: a.apiBase.data) ++
        '/' :: ("api/v2/tailnet/".data ++ a.tailnet.data ++ "/devices".data)) := by
    simp [publicAPIDiscoverer.url, String.data_append]
  unfold rawAuthority
  rw [hdata]
  have hdrop : ∀ l : List Char, ("https://".data ++ l).drop 8 = l := fun l => rfl
  rw [hdrop]
  apply takeWhile_append_stop
  · intro c hc
    rcases List.mem_append.mp hc with h1 | h1
    · simp [ht c h1]
    · rcases List.mem_cons.mp h1 with h2 | h2
      · subst h2
        decide
      · simp [hh c h2]
  · decide

/-- Every error is found in its own chain. -/
theorem errorsIs_self (e : GoError) : errorsIs e e = true := by
  cases e <;> simp [errorsIs]

/-! ## Claims on publicapi.go -/

/-- C1: for every tailnet, token and option list from which `PublicAPI` builds a
Discoverer, and every upstream response with a status from 200 to 299 whose
body decodes to a device list `L`, `Devices` returns a list and a nil error;
the list has the length and order of `L`, and its entry at each index is the
entry of `L` with the `API` field set to the configured API host (the host of
the last `WithAPIHost` option, `api.tailscale.com` when there is none) and the
`Tailnet` field set to the tailnet, whatever the body carried there. -/
theorem C1_devices_stamped (env : Env) (tailnet token : String)
    (opts : List PublicAPIOption) (d : publicAPIDiscoverer) (ctx : Context)
    (req : Request) (resp : Response) (L : List Device)
    (hbuild : PublicAPI env tailnet token opts = some d)
    (hreq : NewRequestWithContext env ctx MethodGet d.url none = .ok req)
    (hdo : d.roundTrip req = some (.ok resp))
    (hstatus : 200 ≤ resp.StatusCode ∧ resp.StatusCode ≤ 299)
    (hdecode : env.jsonDecode resp.Body = .ok L) :
    ∃ L2 : List Device, (d.Devices env ctx).1 = .returned L2 none ∧
      L2.length = L.length ∧
      ∀ i : Nat, L2[i]? = (L[i]?).map
        (fun x => { x with API := configuredAPIHost opts, Tailnet := tailnet }) := by
  obtain ⟨htail, _, hhost, client, hclient⟩ := PublicAPI_fields env tailnet token opts d hbuild
  have hdo2 : client.Do req = .ok resp := by
    simpa [publicAPIDiscoverer.roundTrip, hclient] using hdo
  have hdiv : Int.tdiv resp.StatusCode 100 = 2 := (tdiv_hundred_eq_two _).mpr hstatus
  refine ⟨stampDevices d.apiBase d.tailnet L, ?_, ?_, ?_⟩
  · rw [Devices_of_response env d ctx client req resp hreq hclient hdo2]
    simp [hdiv, hdecode]
  · simp [stampDevices_eq_map]
  · intro i
    rw [stampDevices_eq_map, List.getElem?_map, hhost, htail]

/-- C1 at the sample options: the record comes back stamped with the last host
named and the tailnet of the call. -/
theorem C1_devices_stamped_witness :
    ∃ L2 : List Device,
      (sampleConfigured.Devices sampleEnv sampleCtx).1 = .returned L2 none ∧
      L2.length = [sampleDevice].length ∧
      ∀ i : Nat, L2[i]? = ([sampleDevice][i]?).map
        (fun x => { x with API := configuredAPIHost sampleOptions, Tailnet := "example.com" }) :=
  C1_devices_stamped sampleEnv "example.com" "good" sampleOptions sampleConfigured sampleCtx
    { ctx := sampleCtx, Method := "GET", URL := sampleConfigured.url, Body := none }
    { StatusCode := 200, Status := "200 OK", Body := "one device" } [sampleDevice]
    rfl rfl rfl (by decide) rfl

/-- C2: for every response the client hands back, `Devices` goes on to decode
the body exactly when the status code `c` satisfies `200 ≤ c ≤ 299`, which is
when Go's truncating `c / 100` is 2. On such a code the result is what decoding
gives. On every other code it returns the nil list and an error that wraps the
`errFailedRequest` sentinel, whose message is the sentinel's message, a colon
and the status text, and the body is never decoded. -/
theorem C2_status_check (env : Env) (a : publicAPIDiscoverer) (ctx : Context)
    (client : HTTPClient) (req : Request) (resp : Response)
    (hreq : NewRequestWithContext env ctx MethodGet a.url none = .ok req)
    (hclient : a.client = some client) (hdo : client.Do req = .ok resp) :
    (Int.tdiv resp.StatusCode 100 = 2 ↔ 200 ≤ resp.StatusCode ∧ resp.StatusCode ≤ 299) ∧
    (Effect.decodeBody resp.Body ∈ (a.Devices env ctx).2
      ↔ 200 ≤ resp.StatusCode ∧ resp.StatusCode ≤ 299) ∧
    (200 ≤ resp.StatusCode ∧ resp.StatusCode ≤ 299 →
      (a.Devices env ctx).1 =
        match env.jsonDecode resp.Body with
        | .error err => .returned [] (some err)
        | .ok devices => .returned (stampDevices a.apiBase a.tailnet devices) none) ∧
    (¬ (200 ≤ resp.StatusCode ∧ resp.StatusCode ≤ 299) →
      (a.Devices env ctx).1
        = .returned [] (some (Errorf_w_v env.errFailedRequest resp.Status)) ∧
      errorsIs (Errorf_w_v env.errFailedRequest resp.Status) env.errFailedRequest = true ∧
      (Errorf_w_v env.errFailedRequest resp.Status).Unwrap = some env.errFailedRequest ∧
      (Errorf_w_v env.errFailedRequest resp.Status).Error
        = env.errFailedRequest.Error ++ ": " ++ resp.Status ∧
      ∀ body, Effect.decodeBody body ∉ (a.Devices env ctx).2) := by
  have hD := Devices_of_response env a ctx client req resp hreq hclient hdo
  have hiff := tdiv_hundred_eq_two resp.StatusCode
  refine ⟨hiff, ?_, ?_, ?_⟩
  · by_cases h2 : Int.tdiv resp.StatusCode 100 = 2
    · rw [hD]
      cases hj : env.jsonDecode resp.Body <;> simp [h2, hiff.mp h2]
    · rw [hD]
      simp only [h2, ne_eq, not_false_eq_true, if_true]
      constructor
      · intro hmem
        simp at hmem
      · intro hs
        exact absurd (hiff.mpr hs) h2
  · intro hs
    rw [hD]
    cases hj : env.jsonDecode resp.Body <;> simp [hiff.mpr hs]
  · intro hs
    have h2 : ¬ Int.tdiv resp.StatusCode 100 = 2 := fun h => hs (hiff.mp h)
    rw [hD]
    refine ⟨by simp [h2], ?_, rfl, rfl, by simp [h2]⟩
    simp [Errorf_w_v, errorsIs, errorsIs_self]

/-- C2 at a 401 answer of the sample upstream: the error wraps the sentinel,
its message ends in the status text, and nothing is decoded. -/
theorem C2_status_check_witness :
    ((sampleDiscoverer "bad").Devices sampleEnv sampleCtx).1
      = .returned [] (some (Errorf_w_v sampleEnv.errFailedRequest "401 Unauthorized")) ∧
    errorsIs (Errorf_w_v sampleEnv.errFailedRequest "401 Unauthorized")
      sampleEnv.errFailedRequest = true ∧
    (Errorf_w_v sampleEnv.errFailedRequest "401 Unauthorized").Unwrap
      = some sampleEnv.errFailedRequest ∧
    (Errorf_w_v sampleEnv.errFailedRequest "401 Unauthorized").Error
      = sampleEnv.errFailedRequest.Error ++ ": " ++ "401 Unauthorized" ∧
    ∀ body, Effect.decodeBody body ∉ ((sampleDiscoverer "bad").Devices sampleEnv sampleCtx).2 :=
  (C2_status_check sampleEnv (sampleDiscoverer "bad") sampleCtx (defaultHTTPClient sampleEnv)
    (sampleRequest "bad") { StatusCode := 401, Status := "401 Unauthorized", Body := "" }
    rfl rfl rfl).2.2.2 (by decide)

/-- C3: an error from building the request, from the client's `Do`, or from
decoding the body of a response with a status from 200 to 299 comes back from
`Devices` as that same error value next to the nil list; and `Devices` returns
a nil error only when the request was built, the client answered, the status
was from 200 to 299 and the body decoded. -/
theorem C3_errors_unchanged (env : Env) (a : publicAPIDiscoverer) (ctx : Context) :
    (∀ e, NewRequestWithContext env ctx MethodGet a.url none = .error e →
      (a.Devices env ctx).1 = .returned [] (some e)) ∧
    (∀ client req e, NewRequestWithContext env ctx MethodGet a.url none = .ok req →
      a.client = some client → client.Do req = .error e →
      (a.Devices env ctx).1 = .returned [] (some e)) ∧
    (∀ client req resp e, NewRequestWithContext env ctx MethodGet a.url none = .ok req →
      a.client = some client → client.Do req = .ok resp →
      200 ≤ resp.StatusCode ∧ resp.StatusCode ≤ 299 →
      env.jsonDecode resp.Body = .error e →
      (a.Devices env ctx).1 = .returned [] (some e)) ∧
    (∀ L, (a.Devices env ctx).1 = .returned L none →
      ∃ client req resp L0, NewRequestWithContext env ctx MethodGet a.url none = .ok req ∧
        a.client = some client ∧ client.Do req = .ok resp ∧
        (200 ≤ resp.StatusCode ∧ resp.StatusCode ≤ 299) ∧
        env.jsonDecode resp.Body = .ok L0 ∧ L = stampDevices a.apiBase a.tailnet L0) := by
  refine ⟨?_, ?_, ?_, ?_⟩
  · intro e he
    simp only [publicAPIDiscoverer.Devices, he]
  · intro client req e hreq hclient hdo
    simp only [publicAPIDiscoverer.Devices, hreq, hclient, hdo]
  · intro client req resp e hreq hclient hdo hs hj
    rw [Devices_of_response env a ctx client req resp hreq hclient hdo]
    simp [(tdiv_hundred_eq_two _).mpr hs, hj]
  · intro L hL
    cases hreq : NewRequestWithContext env ctx MethodGet a.url none with
    | error e => simp [publicAPIDiscoverer.Devices, hreq] at hL
    | ok req =>
      cases hclient : a.client with
      | none => simp [publicAPIDiscoverer.Devices, hreq, hclient] at hL
      | some client =>
        cases hdo : client.Do req with
        | error e => simp [publicAPIDiscoverer.Devices, hreq, hclient, hdo] at hL
        | ok resp =>
          rw [Devices_of_response env a ctx client req resp hreq hclient hdo] at hL
          by_cases h2 : Int.tdiv resp.StatusCode 100 = 2
          · cases hj : env.jsonDecode resp.Body with
            | error e => simp [h2, hj] at hL
            | ok L0 =>
              simp [h2, hj] at hL
              exact ⟨client, req, resp, L0, rfl, rfl, hdo, (tdiv_hundred_eq_two _).mp h2, hj,
                hL.symm⟩
          · simp [h2, Errorf_w_v] at hL

/-- C3 on the sample upstream: the refused connection, the body that does not
decode and the rejected URL each come back as the very error the library made. -/
theorem C3_errors_unchanged_witness :
    ((sampleDiscoverer "tok\nen").Devices sampleEnv sampleCtx).1
      = .returned [] (some (.plain 2 "net/url: invalid control character in URL")) ∧
    ((sampleDiscoverer "down").Devices sampleEnv sampleCtx).1
      = .returned [] (some (.plain 4 "dial tcp: connection refused")) ∧
    ((sampleDiscoverer "cut").Devices sampleEnv sampleCtx).1
      = .returned [] (some (.plain 3 "unexpected end of JSON input")) :=
  ⟨(C3_errors_unchanged sampleEnv (sampleDiscoverer "tok\nen") sampleCtx).1 _ rfl,
   (C3_errors_unchanged sampleEnv (sampleDiscoverer "down") sampleCtx).2.1
     (defaultHTTPClient sampleEnv) (sampleRequest "down") _ rfl rfl rfl,
   (C3_errors_unchanged sampleEnv (sampleDiscoverer "cut") sampleCtx).2.2.1
     (defaultHTTPClient sampleEnv) (sampleRequest "cut")
     { StatusCode := 200, Status := "200 OK", Body := "one dev" } _ rfl rfl rfl
     (by decide) rfl⟩

/-- C4, the claim as stated fails twice. With a token that holds a line feed
the library rejects the URL, `Devices` returns that error and hands no request
at all to the client. With the token `a/b` the request is built and sent, but
the authority of its URL is `a` and the URL has no userinfo: the credential is
not in the userinfo position. -/
theorem C4_no_request_when_url_rejected :
    PublicAPI sampleEnv "example.com" "tok\nen" [] = some (sampleDiscoverer "tok\nen") ∧
    (sampleDiscoverer "tok\nen").Devices sampleEnv sampleCtx
      = (.returned [] (some (.plain 2 "net/url: invalid control character in URL")), []) ∧
    requestsIssued ((sampleDiscoverer "tok\nen").Devices sampleEnv sampleCtx).2 = [] ∧
    PublicAPI sampleEnv "example.com" "a/b" [] = some (sampleDiscoverer "a/b") ∧
    requestsIssued ((sampleDiscoverer "a/b").Devices sampleEnv sampleCtx).2 =
      [{ ctx := sampleCtx, Method := "GET",
         URL := "https://a/b@api.tailscale.com/api/v2/tailnet/example.com/devices",
         Body := none }] ∧
    rawAuthority "https://a/b@api.tailscale.com/api/v2/tailnet/example.com/devices" = ['a'] ∧
    rawUserinfo "https://a/b@api.tailscale.com/api/v2/tailnet/example.com/devices" = none :=
  ⟨rfl, by decide, by decide, rfl, by decide, by decide, by decide⟩

/-- C4, amended: for every token, API host and tailnet, a call of `Devices`
hands at most one request to the client. When the request can be built it hands
over exactly one, whatever the client answers and never repeated: the GET
request for the URL string `https://` token `@` host `/api/v2/tailnet/` tailnet
`/devices`, without a body. When the request cannot be built it returns that
error with the nil list and hands over none. The token is the userinfo of that
URL string whenever the token holds none of `/`, `?`, `#` and the host none of
`/`, `?`, `#`, `@`. -/
theorem C4_one_request_once_built (env : Env) (a : publicAPIDiscoverer) (ctx : Context)
    (client : HTTPClient) (hclient : a.client = some client) :
    (requestsIssued (a.Devices env ctx).2).length ≤ 1 ∧
    (∀ req, NewRequestWithContext env ctx MethodGet a.url none = .ok req →
      requestsIssued (a.Devices env ctx).2 =
        [{ ctx := ctx, Method := "GET",
           URL := "https://" ++ a.token ++ "@" ++ a.apiBase ++ "/api/v2/tailnet/"
                    ++ a.tailnet ++ "/devices",
           Body := none }]) ∧
    (∀ e, NewRequestWithContext env ctx MethodGet a.url none = .error e →
      (a.Devices env ctx).1 = .returned [] (some e) ∧
      requestsIssued (a.Devices env ctx).2 = []) ∧
    ((∀ c ∈ a.token.data, endsAuthority c = false) →
      (∀ c ∈ a.apiBase.data, endsAuthority c = false ∧ c ≠ '@') →
      rawUserinfo
        ("https://" ++ a.token ++ "@" ++ a.apiBase ++ "/api/v2/tailnet/"
          ++ a.tailnet ++ "/devices") = some a.token) := by
  have hbuilt : ∀ req, NewRequestWithContext env ctx MethodGet a.url none = .ok req →
      requestsIssued (a.Devices env ctx).2 =
        [{ ctx := ctx, Method := "GET",
           URL := "https://" ++ a.token ++ "@" ++ a.apiBase ++ "/api/v2/tailnet/"
                    ++ a.tailnet ++ "/devices",
           Body := none }] := by
    intro req hreq
    have hr := NewRequestWithContext_ok env ctx MethodGet a.url none req hreq
    cases hdo : client.Do req with
    | error e =>
      simp only [publicAPIDiscoverer.Devices, hreq, hclient, hdo, requestsIssued]
      rw [hr]
      rfl
    | ok resp =>
      rw [Devices_of_response env a ctx client req resp hreq hclient hdo]
      by_cases h2 : Int.tdiv resp.StatusCode 100 = 2
      · cases hj : env.jsonDecode resp.Body <;>
          simp only [h2, ne_eq, not_true_eq_false, if_false, requestsIssued] <;>
          (rw [hr]; rfl)
      · simp only [h2, ne_eq, not_false_eq_true, if_true, requestsIssued]
        rw [hr]
        rfl
  have hnone : ∀ e, NewRequestWithContext env ctx MethodGet a.url none = .error e →
      (a.Devices env ctx).1 = .returned [] (some e) ∧
      requestsIssued (a.Devices env ctx).2 = [] := by
    intro e he
    simp only [publicAPIDiscoverer.Devices, he, requestsIssued, and_self]
  refine ⟨?_, hbuilt, hnone, ?_⟩
  · cases hreq : NewRequestWithContext env ctx MethodGet a.url none with
    | error e => simp [(hnone e hreq).2]
    | ok req => simp [hbuilt req hreq]
  · intro ht hh
    have hauth := rawAuthority_url a ht (fun c hc => (hh c hc).1)
    have hlast := beforeLastAt_append a.token.data a.apiBase.data (fun c hc => (hh c hc).2)
    show rawUserinfo a.url = some a.token
    unfold rawUserinfo
    rw [hauth, hlast]
    rfl

/-- C4 amended, on the sample upstream: one GET request for the URL with the
token before the host, also when the upstream answers 401; the rejected URL
comes back as its error with no request; and the token `bad` is the userinfo of
its URL. -/
theorem C4_one_request_once_built_witness :
    requestsIssued ((sampleDiscoverer "bad").Devices sampleEnv sampleCtx).2 =
      [{ ctx := sampleCtx, Method := "GET",
         URL := "https://bad@api.tailscale.com/api/v2/tailnet/example.com/devices",
         Body := none }] ∧
    (((sampleDiscoverer "tok\nen").Devices sampleEnv sampleCtx).1
        = .returned [] (some (.plain 2 "net/url: invalid control character in URL")) ∧
      requestsIssued ((sampleDiscoverer "tok\nen").Devices sampleEnv sampleCtx).2 = []) ∧
    rawUserinfo "https://bad@api.tailscale.com/api/v2/tailnet/example.com/devices"
      = some "bad" :=
  ⟨(C4_one_request_once_built sampleEnv (sampleDiscoverer "bad") sampleCtx
      (defaultHTTPClient sampleEnv) rfl).2.1 (sampleRequest "bad") rfl,
   (C4_one_request_once_built sampleEnv (sampleDiscoverer "tok\nen") sampleCtx
      (defaultHTTPClient sampleEnv) rfl).2.2.1 _ rfl,
   (C4_one_request_once_built sampleEnv (sampleDiscoverer "bad") sampleCtx
      (defaultHTTPClient sampleEnv) rfl).2.2.2 (by decide) (by decide)⟩

/-- C8: for every response with a status outside 200 to 299 and every two
tokens, the Discoverers built with the one and with the other token, for the
same tailnet and options, return errors with the same message for that
response: the message of the `errFailedRequest` sentinel, a colon and the
status text of the response, with no part taken from the token. -/
theorem C8_error_message_token_free (env : Env) (tailnet t1 t2 : String)
    (opts : List PublicAPIOption) (d1 d2 : publicAPIDiscoverer) (ctx : Context)
    (req1 req2 : Request) (resp : Response)
    (hbuild1 : PublicAPI env tailnet t1 opts = some d1)
    (hbuild2 : PublicAPI env tailnet t2 opts = some d2)
    (hreq1 : NewRequestWithContext env ctx MethodGet d1.url none = .ok req1)
    (hreq2 : NewRequestWithContext env ctx MethodGet d2.url none = .ok req2)
    (hdo1 : d1.roundTrip req1 = some (.ok resp))
    (hdo2 : d2.roundTrip req2 = some (.ok resp))
    (hstatus : ¬ (200 ≤ resp.StatusCode ∧ resp.StatusCode ≤ 299)) :
    ∃ e1 e2, (d1.Devices env ctx).1 = .returned [] (some e1) ∧
      (d2.Devices env ctx).1 = .returned [] (some e2) ∧
      e1.Error = e2.Error ∧
      e1.Error = env.errFailedRequest.Error ++ ": " ++ resp.Status := by
  obtain ⟨_, _, _, c1, hc1⟩ := PublicAPI_fields env tailnet t1 opts d1 hbuild1
  obtain ⟨_, _, _, c2, hc2⟩ := PublicAPI_fields env tailnet t2 opts d2 hbuild2
  have hd1 : c1.Do req1 = .ok resp := by
    simpa [publicAPIDiscoverer.roundTrip, hc1] using hdo1
  have hd2 : c2.Do req2 = .ok resp := by
    simpa [publicAPIDiscoverer.roundTrip, hc2] using hdo2
  have h2 : ¬ Int.tdiv resp.StatusCode 100 = 2 := fun h => hstatus ((tdiv_hundred_eq_two _).mp h)
  refine ⟨Errorf_w_v env.errFailedRequest resp.Status,
    Errorf_w_v env.errFailedRequest resp.Status, ?_, ?_, rfl, rfl⟩
  · rw [Devices_of_response env d1 ctx c1 req1 resp hreq1 hc1 hd1]
    simp [h2]
  · rw [Devices_of_response env d2 ctx c2 req2 resp hreq2 hc2 hd2]
    simp [h2]

/-- C8 on the sample upstream: two tokens it does not know get the same
message, and neither token is in it. -/
theorem C8_error_message_token_free_witness :
    ∃ e1 e2, ((sampleDiscoverer "bad").Devices sampleEnv sampleCtx).1 = .returned [] (some e1) ∧
      ((sampleDiscoverer "worse").Devices sampleEnv sampleCtx).1 = .returned [] (some e2) ∧
      e1.Error = e2.Error ∧
      e1.Error = sampleEnv.errFailedRequest.Error ++ ": " ++ "401 Unauthorized" :=
  C8_error_message_token_free sampleEnv "example.com" "bad" "worse" []
    (sampleDiscoverer "bad") (sampleDiscoverer "worse") sampleCtx
    (sampleRequest "bad") (sampleRequest "worse")
    { StatusCode := 401, Status := "401 Unauthorized", Body := "" }
    rfl rfl rfl rfl rfl rfl (by decide)

/-! ## Lemmas on main.go -/

/-- Without options `PublicAPI` never panics: it builds the Discoverer for the
public host with the default client. -/
theorem PublicAPI_no_options (env : Env) (tailnet token : String) :
    PublicAPI env tailnet token [] =
      some { client := some (defaultHTTPClient env), apiBase := PublicAPIHost,
             tailnet := tailnet, token := token } := rfl

/-- Past the version check and the two validation checks, `main` serves. -/
theorem main_of_valid (sys : Sys) (cl : CmdLine)
    (hver : (config sys cl).printVer = false)
    (h1 : ¬ ((config sys cl).useLocalAPI = false ∧
      ((config sys cl).token = "" ∨ (config sys cl).tailnet = "")))
    (h2 : ¬ ((config sys cl).useLocalAPI = true ∧ (config sys cl).localAPISocket = "")) :
    main sys cl =
      .serving "/"
        (.Export (.RateLimit
          (if (config sys cl).useLocalAPI then .LocalAPI sys.LocalAPISocket
           else .PublicAPI
             { client := some (defaultHTTPClient sys.env), apiBase := PublicAPIHost,
               tailnet := (config sys cl).tailnet, token := (config sys cl).token })
          (config sys cl).pollLimit))
        (config sys cl).address := by
  unfold main
  simp only [hver]
  cases hl : (config sys cl).useLocalAPI with
  | true =>
    have hs : ¬ (config sys cl).localAPISocket = "" := fun h => h2 ⟨hl, h⟩
    simp [hs]
  | false =>
    have ht : ¬ (config sys cl).token = "" := fun h => h1 ⟨hl, Or.inl h⟩
    have hn : ¬ (config sys cl).tailnet = "" := fun h => h1 ⟨hl, Or.inr h⟩
    simp [ht, hn, PublicAPI_no_options]

/-- When the first validation check fires, `main` writes its line to standard
error and then prints the usage, or panics with the error of the write. -/
theorem main_of_missing_token (sys : Sys) (cl : CmdLine)
    (hver : (config sys cl).printVer = false)
    (h1 : (config sys cl).useLocalAPI = false ∧
      ((config sys cl).token = "" ∨ (config sys cl).tailnet = "")) :
    main sys cl =
      match sys.stderrWrite msgPublicAPI with
      | some err => .panicked (some err)
      | none => .usage msgPublicAPI := by
  unfold main
  obtain ⟨hl, ht⟩ := h1
  simp only [hver, hl]
  rcases ht with ht | ht <;> simp [ht]

/-- When the second validation check fires, `main` writes its line to standard
error and then prints the usage, or panics with the error of the write. -/
theorem main_of_missing_socket (sys : Sys) (cl : CmdLine)
    (hver : (config sys cl).printVer = false)
    (h2 : (config sys cl).useLocalAPI = true ∧ (config sys cl).localAPISocket = "") :
    main sys cl =
      match sys.stderrWrite msgLocalAPI with
      | some err => .panicked (some err)
      | none => .usage msgLocalAPI := by
  unfold main
  obtain ⟨hl, hs⟩ := h2
  simp [hver, hl, hs]

/-! ## Claims on main.go -/

/-- C5, the code at two socket flags: whatever sockets `-localapi_socket` names,
`main` builds the local Discoverer with the package constant `LocalAPISocket`,
so it cannot be `LocalAPI(s)` for both flags; and the default of the flag is the
host name `api.tailscale.com`, or the environment variable when that is set. -/
theorem C5_socket_flag_ignored (sys : Sys) :
    (main sys (localFlags "/tmp/a.sock")).backend = some (.LocalAPI sys.LocalAPISocket) ∧
    (main sys (localFlags "/tmp/b.sock")).backend = some (.LocalAPI sys.LocalAPISocket) ∧
    ¬ ((main sys (localFlags "/tmp/a.sock")).backend = some (.LocalAPI "/tmp/a.sock") ∧
       (main sys (localFlags "/tmp/b.sock")).backend = some (.LocalAPI "/tmp/b.sock")) ∧
    (config sys (localFlags "/tmp/a.sock")).localAPISocket = "/tmp/a.sock" ∧
    (config sys noFlags).localAPISocket
      = envVarWithDefault sys "TAILSCALE_LOCAL_API_SOCKET" "api.tailscale.com" := by
  have ha : (main sys (localFlags "/tmp/a.sock")).backend
      = some (.LocalAPI sys.LocalAPISocket) := by
    simp [main, config, flagParse, defineFlags, localFlags, noFlags, MainOutcome.backend]
  have hb : (main sys (localFlags "/tmp/b.sock")).backend
      = some (.LocalAPI sys.LocalAPISocket) := by
    simp [main, config, flagParse, defineFlags, localFlags, noFlags, MainOutcome.backend]
  refine ⟨ha, hb, ?_, rfl, rfl⟩
  rintro ⟨h1, h2⟩
  rw [ha] at h1
  rw [hb] at h2
  simp only [Option.some.injEq, Discoverer.LocalAPI.injEq] at h1 h2
  rw [h1] at h2
  exact absurd h2 (by decide)

/-- C6: for every configuration with which `main` gets past the version check
and its two validation checks, the handler registered at `/` is
`Export(RateLimit(d, pollLimit))`, where `d` is the local Discoverer when
`useLocalAPI` is true and `PublicAPI(tailnet, token)` otherwise; exactly one of
the two variants is built; and `pollLimit` is the value of the `-poll` flag,
which defaults to the duration in `TAILSCALE_API_POLL_LIMIT` when that parses
and to five minutes otherwise. -/
theorem C6_handler_wiring (sys : Sys) (cl : CmdLine)
    (hver : (config sys cl).printVer = false)
    (h1 : ¬ ((config sys cl).useLocalAPI = false ∧
      ((config sys cl).token = "" ∨ (config sys cl).tailnet = "")))
    (h2 : ¬ ((config sys cl).useLocalAPI = true ∧ (config sys cl).localAPISocket = "")) :
    ∃ d : Discoverer,
      main sys cl
        = .serving "/" (.Export (.RateLimit d (config sys cl).pollLimit))
            (config sys cl).address ∧
      ((config sys cl).useLocalAPI = true → d = .LocalAPI sys.LocalAPISocket) ∧
      ((config sys cl).useLocalAPI = false →
        ∃ api, PublicAPI sys.env (config sys cl).tailnet (config sys cl).token [] = some api ∧
          d = .PublicAPI api) ∧
      (Discoverer.RateLimit d (config sys cl).pollLimit).publicCount
        + (Discoverer.RateLimit d (config sys cl).pollLimit).localCount = 1 ∧
      (config sys cl).pollLimit =
        match cl.poll with
        | some p => p
        | none =>
          match sys.LookupEnv "TAILSCALE_API_POLL_LIMIT" with
          | some val =>
            match sys.ParseDuration val with
            | .ok dur => dur
            | .error _ => 5 * Minute
          | none => 5 * Minute := by
  refine ⟨_, main_of_valid sys cl hver h1 h2, ?_, ?_, ?_, ?_⟩
  · intro hl
    simp [hl]
  · intro hl
    exact ⟨_, PublicAPI_no_options _ _ _, by simp [hl]⟩
  · cases hl : (config sys cl).useLocalAPI <;>
      simp [Discoverer.publicCount, Discoverer.localCount]
  · cases hp : cl.poll with
    | some p => simp [config, flagParse, hp]
    | none =>
      simp only [config, flagParse, hp, Option.getD_none, defineFlags,
        durationEnvVarWithDefault, initialVars]
      cases hv : sys.LookupEnv "TAILSCALE_API_POLL_LIMIT" with
      | none => simp [mul_comm]
      | some val => cases hd : sys.ParseDuration val <;> simp [mul_comm]

/-- C6 for `-token tok -tailnet example.com` and an empty environment: the
public Discoverer behind a five minute rate limit, on the default address. -/
theorem C6_handler_wiring_witness :
    ∃ d : Discoverer,
      main (sampleSys noVars false) publicFlags
        = .serving "/" (.Export (.RateLimit d (5 * Minute))) "0.0.0.0:9242" ∧
      d = .PublicAPI (sampleDiscoverer "tok") ∧
      (Discoverer.RateLimit d (5 * Minute)).publicCount
        + (Discoverer.RateLimit d (5 * Minute)).localCount = 1 := by
  obtain ⟨d, hmain, _, hpub, hcount, _⟩ :=
    C6_handler_wiring (sampleSys noVars false) publicFlags rfl (by decide) (by decide)
  obtain ⟨api, hapi, hd⟩ := hpub rfl
  refine ⟨d, hmain, ?_, hcount⟩
  rw [hd]
  have : api = sampleDiscoverer "tok" := Option.some.inj (hapi.symm.trans rfl)
  rw [this]

/-- C7, the claim as stated fails: without token and tailnet and with a
standard error that cannot be written, `main` does not print the usage and
return; it panics with the error of the write. -/
theorem C7_panics_when_stderr_fails :
    (config (sampleSys noVars true) noFlags).printVer = false ∧
    (config (sampleSys noVars true) noFlags).useLocalAPI = false ∧
    (config (sampleSys noVars true) noFlags).token = "" ∧
    main (sampleSys noVars true) noFlags
      = .panicked (some (.plain 6 "write /dev/stderr: bad file descriptor")) ∧
    main (sampleSys noVars true) noFlags ≠ .usage msgPublicAPI := by
  refine ⟨rfl, rfl, rfl, rfl, ?_⟩
  intro h
  have h2 : main (sampleSys noVars true) noFlags
      = .panicked (some (.plain 6 "write /dev/stderr: bad file descriptor")) := rfl
  rw [h2] at h
  cases h

/-- C7, amended: for every configuration with `printVer` false, `main` builds a
Discoverer and serves if and only if `useLocalAPI` is false and token and
tailnet are both non-empty, or `useLocalAPI` is true and `localAPISocket` is
non-empty. In every other case it builds no Discoverer: it writes the line of
the failed check to standard error and then prints the usage and returns, or,
when that write fails, panics with its error. With `useLocalAPI` true and a
non-empty socket it serves whatever token and tailnet are. -/
theorem C7_validation (sys : Sys) (cl : CmdLine)
    (hver : (config sys cl).printVer = false) :
    ((main sys cl).isServing = true ↔
      ((config sys cl).useLocalAPI = false ∧ (config sys cl).token ≠ "" ∧
        (config sys cl).tailnet ≠ "") ∨
      ((config sys cl).useLocalAPI = true ∧ (config sys cl).localAPISocket ≠ "")) ∧
    (¬ (((config sys cl).useLocalAPI = false ∧ (config sys cl).token ≠ "" ∧
          (config sys cl).tailnet ≠ "") ∨
        ((config sys cl).useLocalAPI = true ∧ (config sys cl).localAPISocket ≠ "")) →
      (main sys cl).backend = none ∧
      main sys cl =
        match sys.stderrWrite
          (if (config sys cl).useLocalAPI then msgLocalAPI else msgPublicAPI) with
        | some err => .panicked (some err)
        | none => .usage (if (config sys cl).useLocalAPI then msgLocalAPI else msgPublicAPI)) ∧
    ((config sys cl).useLocalAPI = true → (config sys cl).localAPISocket ≠ "" →
      (main sys cl).isServing = true) := by
  have hserve : (((config sys cl).useLocalAPI = false ∧ (config sys cl).token ≠ "" ∧
        (config sys cl).tailnet ≠ "") ∨
      ((config sys cl).useLocalAPI = true ∧ (config sys cl).localAPISocket ≠ "")) →
      (main sys cl).isServing = true := by
    intro hc
    rw [main_of_valid sys cl hver (by rcases hc with ⟨a, b, c⟩ | ⟨a, b⟩ <;> simp_all)
      (by rcases hc with ⟨a, b, c⟩ | ⟨a, b⟩ <;> simp_all)]
    rfl
  have hstop : ¬ (((config sys cl).useLocalAPI = false ∧ (config sys cl).token ≠ "" ∧
        (config sys cl).tailnet ≠ "") ∨
      ((config sys cl).useLocalAPI = true ∧ (config sys cl).localAPISocket ≠ "")) →
      main sys cl =
        match sys.stderrWrite
          (if (config sys cl).useLocalAPI then msgLocalAPI else msgPublicAPI) with
        | some err => .panicked (some err)
        | none =>
          .usage (if (config sys cl).useLocalAPI then msgLocalAPI else msgPublicAPI) := by
    intro hc
    cases hl : (config sys cl).useLocalAPI with
    | false =>
      have ht : (config sys cl).token = "" ∨ (config sys cl).tailnet = "" := by
        by_contra hno
        push_neg at hno
        exact hc (Or.inl ⟨hl, hno.1, hno.2⟩)
      rw [main_of_missing_token sys cl hver ⟨hl, ht⟩]
      simp
    | true =>
      have hs : (config sys cl).localAPISocket = "" := by
        by_contra hno
        exact hc (Or.inr ⟨hl, hno⟩)
      rw [main_of_missing_socket sys cl hver ⟨hl, hs⟩]
      simp
  refine ⟨⟨?_, hserve⟩, ?_, fun hl hs => hserve (Or.inr ⟨hl, hs⟩)⟩
  · intro hs
    by_contra hc
    rw [hstop hc] at hs
    cases hw : sys.stderrWrite
        (if (config sys cl).useLocalAPI then msgLocalAPI else msgPublicAPI) <;>
      simp [hw, MainOutcome.isServing] at hs
  · intro hc
    refine ⟨?_, hstop hc⟩
    rw [hstop hc]
    cases hw : sys.stderrWrite
        (if (config sys cl).useLocalAPI then msgLocalAPI else msgPublicAPI) <;>
      simp [MainOutcome.backend]

/-- C7 amended, on two runs: the environment asks for the local API and gives
neither token nor tailnet, and `main` serves; nothing is given at all, and
`main` prints the usage. -/
theorem C7_validation_witness :
    (config (sampleSys localVars false) noFlags).token = "" ∧
    (main (sampleSys localVars false) noFlags).isServing = true ∧
    (main (sampleSys noVars false) noFlags).backend = none ∧
    main (sampleSys noVars false) noFlags = .usage msgPublicAPI :=
  ⟨rfl,
   (C7_validation (sampleSys localVars false) noFlags rfl).2.2 (by decide) (by decide),
   ((C7_validation (sampleSys noVars false) noFlags rfl).2.1 (by decide)).1,
   ((C7_validation (sampleSys noVars false) noFlags rfl).2.1 (by decide)).2⟩

/-- C10: `boolEnvVarWithDefault` returns the default when the variable is
unset. When it is set to `v` it returns true if and only if `v`, trimmed of
surrounding white space and lower-cased, is `true` or `yes`; the default then
plays no part, so the empty value gives false under the default true.
`envVarWithDefault` returns the value of the variable whenever it is set, the
empty string included, and the default only when it is unset. -/
theorem C10_env_defaults (sys : Sys) (key : String) :
    (sys.LookupEnv key = none → ∀ d : Bool, boolEnvVarWithDefault sys key d = d) ∧
    (∀ v, sys.LookupEnv key = some v → ∀ d : Bool,
      (boolEnvVarWithDefault sys key d = true ↔
        ToLower sys (TrimSpace v) = "true" ∨ ToLower sys (TrimSpace v) = "yes")) ∧
    (∀ v, sys.LookupEnv key = some v →
      boolEnvVarWithDefault sys key true = boolEnvVarWithDefault sys key false) ∧
    (sys.LookupEnv key = some "" → boolEnvVarWithDefault sys key true = false) ∧
    (∀ v, sys.LookupEnv key = some v → ∀ d : String, envVarWithDefault sys key d = v) ∧
    (sys.LookupEnv key = none → ∀ d : String, envVarWithDefault sys key d = d) := by
  refine ⟨?_, ?_, ?_, ?_, ?_, ?_⟩
  · intro h d
    simp [boolEnvVarWithDefault, h]
  · intro v h d
    simp [boolEnvVarWithDefault, h]
  · intro v h
    simp [boolEnvVarWithDefault, h]
  · intro h
    have he : ToLower sys (TrimSpace "") = "" := rfl
    simp [boolEnvVarWithDefault, h, he]
  · intro v h d
    simp [envVarWithDefault, h]
  · intro h d
    simp [envVarWithDefault, h]

/-- C10 on a sample environment: ` Yes` followed by a tab switches the local API
on under the default false, and the empty `LISTEN` replaces the default
address. -/
theorem C10_env_defaults_witness :
    boolEnvVarWithDefault (sampleSys localVars false) "TAILSCALE_USE_LOCAL_API" false = true ∧
    envVarWithDefault (sampleSys localVars false) "LISTEN" "0.0.0.0:9242" = "" ∧
    boolEnvVarWithDefault (sampleSys noVars false) "TAILSCALE_USE_LOCAL_API" true = true :=
  ⟨((C10_env_defaults (sampleSys localVars false) "TAILSCALE_USE_LOCAL_API").2.1
      " Yes\t" rfl false).mpr (Or.inr (by decide)),
   (C10_env_defaults (sampleSys localVars false) "LISTEN").2.2.2.2.1 "" rfl "0.0.0.0:9242",
   (C10_env_defaults (sampleSys noVars false) "TAILSCALE_USE_LOCAL_API").1 rfl true⟩

end Tailscalesd
